import Mathlib

/-!
# Verification of the Question Pool Assembly & Session Timing Engine

Shallow embedding of the core logic of the `eleven-plus-quiz` repository:
the quiz page variants in `src/unnamed/part_004` (second page variant,
which the claims cite), `src/unnamed/part_002`, and `src/app/page.tsx`.

JavaScript's `Math.random()` is modelled by an explicit stream of natural
numbers `r : Nat → Nat`: each call site reads one stream element, and a
draw `Math.floor(Math.random()*(n+1))` (a uniform value in `[0, n]`) is
modelled as `r k % (n+1)` — every outcome of the real program corresponds
to some stream, and every stream corresponds to a possible run.
Machine arithmetic (`|0`, i.e. 32-bit signed truncation in `stemHash`) is
modelled on `Int` with explicit `% 2^32`.
-/

namespace ElevenPlus

/-- JS `x | 0` applied to an integer value: truncation to a signed 32-bit
integer.  All intermediate values in `stemHash` stay below `2^53`, so the
JS double arithmetic is exact and this is the whole story. -/
def toInt32 (x : Int) : Int :=
  (x + 2 ^ 31) % 2 ^ 32 - 2 ^ 31

/-- Function `randInt(min,max)` from `part_004` line 390:
`Math.floor(Math.random()*(max-min+1))+min`, with the random draw
modelled by the supplied stream value `v`. -/
def randInt (min max v : Nat) : Nat :=
  min + v % (max - min + 1)

/-- One Fisher–Yates swap step: exchange positions `i` and `j` of the
list (both in bounds in every use). -/
def listSwap {α : Type} (l : List α) (i j : Nat) : List α :=
  match l.get? i, l.get? j with
  | some x, some y => (l.set i y).set j x
  | _, _ => l

/-- The loop of `shuffle` (`part_004` lines 385-389): for `i` from
`a.length-1` down to `1`, swap `a[i]` with `a[j]` where
`j = Math.floor(Math.random()*(i+1))`.  The stream `r` supplies the
random draws, indexed by the loop variable. -/
def fisherYatesAux {α : Type} (r : Nat → Nat) : Nat → List α → List α
  | 0, a => a
  | Nat.succ i, a => fisherYatesAux r i (listSwap a (i + 1) (r (i + 1) % (i + 2)))

/-- Function `shuffle(arr)` from `part_004` lines 385-389 (identical in
`part_002` line 53 and `src/app/page.tsx` lines 45-52): copy the array
and run the Fisher–Yates loop.  The copy means the input is never
mutated; in this pure embedding that is automatic. -/
def shuffle {α : Type} (r : Nat → Nat) (arr : List α) : List α :=
  fisherYatesAux r (arr.length - 1) arr

/-- Function `stemHash(stem)` from `part_004` lines 391-393:
`h = (h*31 + stem.charCodeAt(i)) | 0` over the UTF-16 code units,
rendered to a decimal string.  All stems in this development are in the
basic multilingual plane, where UTF-16 code units coincide with the
code points `Char.toNat` yields. -/
def stemHash (stem : String) : String :=
  (stem.data.foldl (fun h c => toInt32 (h * 31 + c.toNat)) 0).repr

/-! Section: Data model (`part_004`, second page variant, lines 292-441) -/

inductive Board where
  | Kent | Bexley | Generic
  deriving DecidableEq, Repr

inductive GradeLevel where
  | Y4 | Y5 | DASH
  deriving DecidableEq, Repr

inductive ShapeKind where
  | triangle | square | circle | diamond
  deriving DecidableEq, Repr

inductive FillKind where
  | black | white
  deriving DecidableEq, Repr

structure SvgAtom where
  shape : ShapeKind
  fill : FillKind
  size : Nat
  rotation : Option Int := none
  x : Nat
  y : Nat
  deriving DecidableEq, Repr

/-- The subjects a `Question` can carry (`Exclude<Subject,"writing">`). -/
inductive Subject where
  | maths | english | vr | nvr | comprehension
  deriving DecidableEq, Repr

/-- The subjects `buildWithQuota` and `loadCurated` accept
(`Exclude<Subject,"comprehension"|"writing">`). -/
inductive QSubject where
  | maths | english | vr | nvr
  deriving DecidableEq, Repr

/-- Structure `Question` from `part_004` lines 316-326.  The optional `tags` and
`exam_board` fields are modelled as lists, with `[]` standing for both
`undefined` and an empty array: every read site
(`!q.tags?.length`, `q.exam_board?.some(...)`, `(q.tags||[])`) treats
the two identically. -/
structure Question where
  id : String
  subject : Subject
  stem : String
  choices : List String
  answerIndex : Int
  explanation : Option String := none
  tags : List String := []
  exam_board : List Board := []
  svgChoiceSets : Option (List (List SvgAtom)) := none
  deriving DecidableEq, Repr

/-- Structure `Settings` from `part_004` lines 481-485. -/
structure Settings where
  grade : GradeLevel
  boards : List Board
  allowHarder : Bool
  deriving DecidableEq, Repr

/-- Constant `DEFAULT_SETTINGS` (`part_004` lines 486-490). -/
def DEFAULT_SETTINGS : Settings :=
  { grade := .Y4, boards := [.Kent, .Bexley], allowHarder := false }

/-- Function `yearTag(grade)` (`part_004` line 566). -/
def yearTag : GradeLevel → String
  | .Y4 => "year:4"
  | .Y5 => "year:5"
  | .DASH => "year:6"

/-- JS `indexOf` on an array of strings: first index, or `-1`. -/
def indexOfStr (l : List String) (s : String) : Int :=
  match l.indexOf? s with
  | some i => (i : Int)
  | none => -1

/-! Section: Config constants (`part_004` lines 352-367) -/

def QUIZ_SECONDS : Nat := 10 * 60
def DAILY_CAP_SECONDS : Nat := 30 * 60
def WRITING_SECONDS : Nat := 30 * 60

def TARGET_COUNTS : QSubject → Nat
  | .maths => 12
  | .english => 12
  | .vr => 10
  | .nvr => 10

/-! Section: Deduplicator, recency buffer, tag helpers -/

/-- The value `sh` computed for an item inside `uniqueByIdThenStem`
(`part_004` line 397): the stem fingerprint, or `""` when the stem is
empty or missing (the falsy case of `it.stem ? stemHash(it.stem) : ""`). -/
def shOf (q : Question) : String :=
  if q.stem = "" then "" else stemHash q.stem

/-- Function `uniqueByIdThenStem` (`part_004` lines 394-404), with the growing
`seenId`/`seenStem` sets made explicit.  An item whose `sh` is empty
skips the stem check and contributes nothing to `seenStem`. -/
def uniqueAux (seenId seenStem : List String) : List Question → List Question
  | [] => []
  | q :: rest =>
    if q.id ∈ seenId then uniqueAux seenId seenStem rest
    else if shOf q ≠ "" ∧ shOf q ∈ seenStem then uniqueAux seenId seenStem rest
    else q :: uniqueAux (q.id :: seenId)
        (if shOf q = "" then seenStem else shOf q :: seenStem) rest

def uniqueByIdThenStem (arr : List Question) : List Question :=
  uniqueAux [] [] arr

/-- Function `filterNotRecent` (`part_004` lines 426-429), with the
session-storage recency buffer passed explicitly. -/
def filterNotRecent (recent : List String) (arr : List Question) : List Question :=
  arr.filter (fun q => decide (q.id ∉ recent))

/-- First-occurrence deduplication of a string list: the order
`Array.from(new Set(xs))` produces. -/
def dedupFirst (l : List String) : List String :=
  go [] l
where
  go (seen : List String) : List String → List String
    | [] => []
    | x :: rest => if x ∈ seen then go seen rest else x :: go (x :: seen) rest

/-- Function `pushRecentIds` (`part_004` lines 419-424): append, set-deduplicate
keeping first occurrences, keep the last 120 entries (`slice(-120)`). -/
def pushRecentIds (recent ids : List String) : List String :=
  let d := dedupFirst (recent ++ ids)
  d.drop (d.length - 120)

/-- JS `value || fallback` on an optional string: `undefined` and the
empty string both fall back. -/
def jsOr (o : Option String) (d : String) : String :=
  match o with
  | none => d
  | some s => if s = "" then d else s

/-- JS `t.startsWith(prefix)`, computed on the character lists (all
strings involved are in the basic multilingual plane, where UTF-16
units and characters coincide). -/
def strStartsWith (s pre : String) : Bool :=
  pre.data.isPrefixOf s.data

/-- JS `t.slice(n)` on the character list. -/
def strDrop (s : String) (n : Nat) : String :=
  String.mk (s.data.drop n)

/-- Function `tagValue(tags, prefix)` (`part_004` lines 830-834): the text after
`prefix` in the first tag that starts with it. -/
def tagValue (tags : List String) (pre : String) : Option String :=
  (tags.find? (fun t => strStartsWith t pre)).map (fun t => strDrop t pre.length)

/-- The topic key `partitionByTopic` files a question under
(`part_004` line 838): `tagValue(q.tags,"topic:") || "misc"`. -/
def topicOf (q : Question) : String :=
  jsOr (tagValue q.tags "topic:") "misc"

/-- The group `partitionByTopic(qs)[t]` (`part_004` lines 835-843): the
dictionary preserves the relative order of `qs` inside each group, so
each group is a plain filter. -/
def byTopic (qs : List Question) (t : String) : List Question :=
  qs.filter (fun q => topicOf q = t)

/-- Function `takeFrom(group, n)` (`part_004` lines 844-847): empty or
non-positive requests give `[]`, otherwise a shuffled prefix. -/
def takeFrom (r : Nat → Nat) (group : List Question) (n : Nat) : List Question :=
  if group.length = 0 ∨ n = 0 then [] else (shuffle r group).take n

/-! Section: Eligibility filter and pool assembly (`part_004` lines 848-906) -/

/-- The candidate filter inside `buildWithQuota` (lines 851-857):
`yearOk && boardOk && diffOk`.  Note `yearOk` is
`!q.tags?.length || q.tags.includes(ytag)` — it tests whether the whole
tag list is empty, not whether a year tag is absent. -/
def buildFilterPred (st : Settings) (q : Question) : Bool :=
  let yearOk := q.tags.isEmpty || q.tags.contains (yearTag st.grade)
  let boardOk := q.exam_board.isEmpty ||
    q.exam_board.any (fun b => st.boards.contains b)
  let diff := jsOr (tagValue q.tags "difficulty:") "medium"
  let diffOk := st.allowHarder || diff ≠ "hard"
  yearOk && boardOk && diffOk

/-- A question's membership test for the filtered pool: the
`buildWithQuota` tag filter composed with the recency filter
(`filterNotRecent`), exactly the stages of lines 850-858. -/
def eligible (st : Settings) (recent : List String) (q : Question) : Bool :=
  buildFilterPred st q && decide (q.id ∉ recent)

/-- Function `buildWithQuota(subject, curated, generated, settings)`
(`part_004` lines 848-906).  The recency buffer is threaded explicitly:
the result is the selected list together with the updated buffer that
`pushRecentIds` leaves in session storage.  `r k` is the random stream
consumed by the `k`-th `shuffle` call. -/
def buildWithQuota (r : Nat → Nat → Nat) (subject : QSubject)
    (curated generated : List Question) (st : Settings)
    (recent : List String) : List Question × List String :=
  let filtered := uniqueByIdThenStem (filterNotRecent recent
    ((curated ++ generated).filter (buildFilterPred st)))
  let selections : List Question :=
    match subject with
    | .maths =>
      takeFrom (r 0) (byTopic filtered "arithmetic") 4 ++
      takeFrom (r 1) (byTopic filtered "fracpct") 3 ++
      takeFrom (r 2) (byTopic filtered "geometry") 2 ++
      takeFrom (r 3) (byTopic filtered "word") 2 ++
      takeFrom (r 4) (byTopic filtered "data") 1
    | .english =>
      takeFrom (r 0) (byTopic filtered "vocab") 4 ++
      takeFrom (r 1) (byTopic filtered "grammar") 4 ++
      takeFrom (r 2) (byTopic filtered "cloze") 2 ++
      takeFrom (r 3) (byTopic filtered "improve") 2
    | .vr =>
      takeFrom (r 0) (byTopic filtered "sequences") 4 ++
      takeFrom (r 1) (byTopic filtered "analogies") 3 ++
      takeFrom (r 2) (byTopic filtered "codes") 3
    | .nvr =>
      let svgFirst := filtered.filter (fun q =>
        match q.svgChoiceSets with
        | some s => s.length = 4
        | none => false)
      let pickGroup := fun t =>
        if (byTopic svgFirst t).isEmpty then byTopic filtered t
        else byTopic svgFirst t
      takeFrom (r 0) (pickGroup "odd") 4 ++
      takeFrom (r 1) (pickGroup "rotation") 3 ++
      takeFrom (r 2) (pickGroup "reflection") 2 ++
      takeFrom (r 3) (pickGroup "matrix") 1
  let selections2 :=
    if TARGET_COUNTS subject ≤ selections.length then selections
    else selections ++
      (filtered.filter (fun q =>
        !selections.any (fun s2 => s2.id = q.id))).take
        (TARGET_COUNTS subject - selections.length)
  let final := (uniqueByIdThenStem selections2).take (TARGET_COUNTS subject)
  (final, pushRecentIds recent (final.map (·.id)))

/-! Section: Maths generator (`part_004` lines 632-681)

`genMaths` runs five loops with constant bounds (4 arithmetic, 3
fraction, 2 geometry, 2 word, 1 data items); the embedding spells the
twelve pushes out, one helper per loop body.  `now` is the common
`Date.now()` timestamp baked into the ids; `r k` is the random stream
the `k`-th item consumes (data draws at indices `0..9`, the item's
`shuffle` at indices `10+`). -/

/-- JS `Math.round`: round half toward `+∞`. -/
def jsRound (q : ℚ) : Int := Int.floor (q + 1 / 2)

/-- Rendering of a numeric choice value to the string stored in
`choices` (`.map(String)` in the source).  Only (in)equality of choice
strings is ever observable in the claims; this rendering is injective
on `ℚ` and agrees with JS on integers. -/
def ratToStr (q : ℚ) : String :=
  if q.den = 1 then toString q.num else toString q.num ++ "/" ++ toString q.den

/-- Arithmetic item (lines 637-643). -/
def genArithItem (st : Settings) (now i : Nat) (s : Nat → Nat) : Question :=
  let a := if st.grade = .Y4 then randInt 2 12 (s 0) else randInt 6 18 (s 0)
  let b := if st.grade = .Y4 then randInt 2 12 (s 1) else randInt 6 18 (s 1)
  let ans := a * b
  let vals : List Nat := [ans, ans + randInt 1 4 (s 2),
    max 1 (ans - randInt 1 4 (s 3)), ans + randInt 5 8 (s 4)]
  let choices := (shuffle (fun j => s (10 + j)) vals).map toString
  { id := "m-arith-" ++ toString now ++ "-" ++ toString i
    subject := .maths
    stem := "What is " ++ toString a ++ " × " ++ toString b ++ "?"
    choices := choices
    answerIndex := indexOfStr choices (toString ans)
    explanation := some (toString a ++ " × " ++ toString b ++ " = " ++
      toString ans ++ ".")
    tags := [yearTag st.grade, "topic:arithmetic", "skill:multiplication",
      "difficulty:" ++ (if st.grade = .DASH then "medium" else "easy")] }

/-- Fraction item (lines 646-651).  The double arithmetic
`Math.round(((num/denom)*whole)*100)/100` is exact on rationals for the
reachable inputs (denominators 4, 5, 8, 10 and the factor 100 keep the
rounding boundary cases representable), so `ℚ` is a faithful model. -/
def genFracItem (st : Settings) (now i : Nat) (s : Nat → Nat) : Question :=
  let denom := [4, 5, 8, 10].getD (randInt 0 3 (s 0)) 0
  let num := [1, 2, 3].getD (randInt 0 2 (s 1)) 0
  let whole := if st.grade = .Y4 then randInt 8 30 (s 2) else randInt 12 60 (s 2)
  let ans : ℚ := (jsRound (((num : ℚ) / (denom : ℚ)) * (whole : ℚ) * 100) : ℚ) / 100
  let vals : List ℚ := [ans, ans + 1, max 1 (ans - 1), ans + 2]
  let choices := (shuffle (fun j => s (10 + j)) vals).map ratToStr
  { id := "m-frac-" ++ toString now ++ "-" ++ toString i
    subject := .maths
    stem := "What is " ++ toString num ++ "/" ++ toString denom ++ " of " ++
      toString whole ++ "?"
    choices := choices
    answerIndex := indexOfStr choices (ratToStr ans)
    explanation := some (toString num ++ "/" ++ toString denom ++ " × " ++
      toString whole ++ " = " ++ ratToStr ans ++ ".")
    tags := [yearTag st.grade, "topic:fracpct", "skill:frac-of-whole",
      "difficulty:" ++ (if st.grade = .DASH then "hard" else "medium")] }

/-- First index of the maximum entry: `areas.indexOf(Math.max(...areas))`. -/
def argmaxFirst (l : List Nat) : Nat :=
  (l.indexOf? (l.foldl max 0)).getD 0

/-- Geometry item (lines 654-661): four random rectangles, the answer
is the (first) one of largest area; no shuffle is involved. -/
def genGeomItem (st : Settings) (now i : Nat) (s : Nat → Nat) : Question :=
  let rects : List (Nat × Nat) :=
    [(randInt 3 12 (s 0), randInt 3 12 (s 1)),
     (randInt 3 12 (s 2), randInt 3 12 (s 3)),
     (randInt 3 12 (s 4), randInt 3 12 (s 5)),
     (randInt 3 12 (s 6), randInt 3 12 (s 7))]
  let areas := rects.map (fun p => p.1 * p.2)
  let correct := argmaxFirst areas
  let dims := fun (p : Nat × Nat) => toString p.1 ++ "×" ++ toString p.2
  { id := "m-geom-" ++ toString now ++ "-" ++ toString i
    subject := .maths
    stem := "Which rectangle has the largest area? (A: " ++
      dims (rects.getD 0 (0, 0)) ++ ", B: " ++ dims (rects.getD 1 (0, 0)) ++
      ", C: " ++ dims (rects.getD 2 (0, 0)) ++ ", D: " ++
      dims (rects.getD 3 (0, 0)) ++ ")"
    choices := ["A", "B", "C", "D"]
    answerIndex := (correct : Int)
    explanation := some "Compare areas w×h; the largest product wins."
    svgChoiceSets := some (List.replicate 4
      [{ shape := .square, fill := .white, size := 56, x := 50, y := 50 }])
    tags := [yearTag st.grade, "topic:geometry", "skill:area",
      "difficulty:" ++ (if st.grade = .DASH then "medium" else "easy")] }

/-- Word-problem item (lines 664-669). -/
def genWordItem (st : Settings) (now i : Nat) (s : Nat → Nat) : Question :=
  let price := randInt 2 8 (s 0)
  let qty := if st.grade = .Y4 then randInt 3 8 (s 1) else randInt 5 12 (s 1)
  let extra := randInt 1 4 (s 2)
  let ans := price * qty + extra
  let vals : List Nat := [ans, ans + 2, max 1 (ans - 2), ans + 5]
  let choices := (shuffle (fun j => s (10 + j)) vals).map toString
  { id := "m-word-" ++ toString now ++ "-" ++ toString i
    subject := .maths
    stem := "Stickers cost £" ++ toString price ++ " each. Tom buys " ++
      toString qty ++ " stickers and a £" ++ toString extra ++
      " notebook. How much in total?"
    choices := choices
    answerIndex := indexOfStr choices (toString ans)
    explanation := some ("Total = " ++ toString price ++ "×" ++ toString qty ++
      " + " ++ toString extra ++ " = £" ++ toString ans ++ ".")
    tags := [yearTag st.grade, "topic:word", "skill:two-step",
      "difficulty:" ++ (if st.grade = .DASH then "hard" else "medium")] }

/-- Data item (lines 672-678).  `Object.entries(data).sort((a,b)=>b[1]-a[1])[0][0]`
with a stable sort is the first key of maximal count. -/
def genDataItem (st : Settings) (now i : Nat) (s : Nat → Nat) : Question :=
  let apples := randInt 6 12 (s 0)
  let bananas := randInt 3 10 (s 1)
  let pears := randInt 2 8 (s 2)
  let m := max apples (max bananas pears)
  let maxKey := if apples = m then "apples"
    else if bananas = m then "bananas" else "pears"
  let choices := shuffle (fun j => s (10 + j)) ["apples", "bananas", "pears"]
  { id := "m-data-" ++ toString now ++ "-" ++ toString i
    subject := .maths
    stem := "A tally shows: apples=" ++ toString apples ++ ", bananas=" ++
      toString bananas ++ ", pears=" ++ toString pears ++
      ". Which fruit had the highest count?"
    choices := choices
    answerIndex := indexOfStr choices maxKey
    explanation := some ("Compare counts; " ++ maxKey ++ " is highest.")
    tags := [yearTag st.grade, "topic:data", "skill:read-data",
      "difficulty:" ++ (if st.grade = .DASH then "medium" else "easy")] }

/-- Function `genMaths(settings)` (lines 632-681): the twelve generated items in
push order. -/
def genMaths (st : Settings) (now : Nat) (r : Nat → Nat → Nat) : List Question :=
  [genArithItem st now 0 (r 0), genArithItem st now 1 (r 1),
   genArithItem st now 2 (r 2), genArithItem st now 3 (r 3),
   genFracItem st now 0 (r 4), genFracItem st now 1 (r 5),
   genFracItem st now 2 (r 6),
   genGeomItem st now 0 (r 7), genGeomItem st now 1 (r 8),
   genWordItem st now 0 (r 9), genWordItem st now 1 (r 10),
   genDataItem st now 0 (r 11)]

/-! Section: Daily Usage Ledger (`part_004` lines 370-382)

The persistent store holds one integer per calendar-day key.
`getUsedSecondsToday`/`addUsedSecondsToday` read and read-modify-write
the entry under today's key. -/

def UsageStore : Type := String → Nat

/-- Function `getUsedSecondsToday()` (lines 374-377) for an explicit day key. -/
def getUsedSeconds (store : UsageStore) (day : String) : Nat := store day

/-- Function `addUsedSecondsToday(n)` (lines 378-382): store `cur + n` under the
day key. -/
def addUsedSeconds (store : UsageStore) (day : String) (n : Nat) : UsageStore :=
  fun k => if k = day then getUsedSeconds store day + n else store k

/-- A same-day sequence of session-end commits applied in order. -/
def applyCommits (day : String) (commits : List Nat) (store : UsageStore) :
    UsageStore :=
  commits.foldl (fun st n => addUsedSeconds st day n) store

/-! Section: Session state machine (`part_004`, second variant, lines 909-996)

State of the `Page` component restricted to the fields the session
logic reads and writes.  `ledger` is today's entry of the persistent
store; `dailyUsed` is the React-state cache of it. -/

inductive Mode where
  | menu | quiz | results | practice | writing | writingResults
  deriving DecidableEq, Repr

structure QState where
  mode : Mode
  questionsLen : Nat
  index : Nat
  answersLen : Nat
  secondsLeft : Nat
  paused : Bool
  ledger : Nat
  dailyUsed : Nat
  deriving DecidableEq, Repr

/-- Guard `canStart` (line 939). -/
def canStart (s : QState) : Bool := s.dailyUsed < DAILY_CAP_SECONDS

/-- Function `remainingToday` (line 940): `Math.max(0, DAILY_CAP_SECONDS - dailyUsed)`
(truncated subtraction on `Nat` is exactly the clamped difference). -/
def remainingToday (s : QState) : Nat := DAILY_CAP_SECONDS - s.dailyUsed

/-- The state updates of `startQuiz(subj)` for a quiz subject
(lines 967-990): refuse when `!canStart`, otherwise install the built
pool (its length is all the machine reads) and clamp the countdown. -/
def startQuizState (qsLen : Nat) (s : QState) : QState :=
  if canStart s then
    { s with
      mode := .quiz
      questionsLen := qsLen
      index := 0
      answersLen := 0
      secondsLeft := min QUIZ_SECONDS (remainingToday s)
      paused := false }
  else s

/-- One run of the quiz-timer effect (lines 926-930): inactive outside
unpaused quiz mode; at `secondsLeft <= 0` transition to `results` and
commit `QUIZ_SECONDS` to the ledger; otherwise one scheduled tick
decrements the countdown.  (`part_002` lines 214-218 are the same
effect without the `paused` guard.) -/
def quizTimerEffect (s : QState) : QState :=
  if s.mode = .quiz ∧ s.paused = false then
    if s.secondsLeft = 0 then
      { s with
        mode := .results
        ledger := s.ledger + QUIZ_SECONDS
        dailyUsed := s.ledger + QUIZ_SECONDS }
    else { s with secondsLeft := s.secondsLeft - 1 }
  else s

/-- Handler `answer(i)` (lines 993-996): record the answer, advance, and on the
last question switch to `results` — with no ledger write. -/
def answerEvent (s : QState) : QState :=
  let s' := { s with answersLen := s.answersLen + 1 }
  if s'.index + 1 < s'.questionsLen then { s' with index := s'.index + 1 }
  else { s' with mode := .results }

/-- The "End quiz" button (line 1072): `setMode("results")` — with no
ledger write. -/
def endQuizClick (s : QState) : QState := { s with mode := .results }

/-! Section: Fraction-compare generator of `src/app/page.tsx` (lines 105-118) -/

structure MCOption where
  text : String
  correct : Bool
  deriving DecidableEq, Repr

/-- The option list of a "Which fraction is larger?" item
(`generateMathsQuestions`, `pick === 2` branch, lines 105-118): the
fractions are compared exactly (double division and comparison are
exact discriminators at these denominators), the `correct` flags are
computed independently for the two fractions and the `Equal` option,
and the three options are shuffled.  The opaque `uid()` ids are
omitted: nothing in the claims reads them. -/
def fracCompareOptions (r : Nat → Nat) (n1 d1 n2 d2 : Nat) : List MCOption :=
  let v1 : ℚ := (n1 : ℚ) / (d1 : ℚ)
  let v2 : ℚ := (n2 : ℚ) / (d2 : ℚ)
  let s1 := toString n1 ++ "/" ++ toString d1
  let s2 := toString n2 ++ "/" ++ toString d2
  let correct := if v1 > v2 then s1 else s2
  shuffle r
    [{ text := s1, correct := decide (correct = s1) },
     { text := s2, correct := decide (correct = s2) },
     { text := "Equal", correct := decide (v1 = v2) }]

/-! Section: The spec-side eligibility predicate, for comparison with
the code's filter (claim C7 is a refinement claim). -/

/-- Eligibility as the spec's words state it (spec §4.3): the year tag
is absent or matches the profile's grade-derived year tag; the board
set is empty or intersects the accepted boards; the difficulty tag is
not "hard" unless the harder-flag is set; the id is not recent.  This
definition follows the specification text, not the source; it exists
only to be compared with `eligible`. -/
def specEligible (st : Settings) (recent : List String) (q : Question) : Bool :=
  let yearOk := (q.tags.find? (fun t => strStartsWith t "year:")).isNone ||
    q.tags.contains (yearTag st.grade)
  let boardOk := q.exam_board.isEmpty ||
    q.exam_board.any (fun b => st.boards.contains b)
  let diffOk := st.allowHarder ||
    !(tagValue q.tags "difficulty:" == some "hard")
  yearOk && boardOk && diffOk && decide (q.id ∉ recent)

/-! Section: Concrete scenario constants used by counterexamples and
witnesses. -/

/-- The page state on the menu with `used` seconds already consumed
today: the component's `useState` defaults with `dailyUsed` loaded from
the store. -/
def menuState (used : Nat) : QState :=
  { mode := .menu
    questionsLen := 0
    index := 0
    answersLen := 0
    secondsLeft := QUIZ_SECONDS
    paused := false
    ledger := used
    dailyUsed := used }

/-- A degenerate random source: every draw is 0. -/
def rngZero : Nat → Nat → Nat := fun _ _ => 0

/-- A random source under which `genMaths` produces twelve pairwise
distinct stems: item `k` draws the constant `k`. -/
def rgDistinct : Nat → Nat → Nat := fun k _ => k

/-- A small eligible curated pool of four maths questions, used for the
Scenario B (claim C5) runs. -/
def poolC5 : List Question :=
  [{ id := "q1", subject := .maths, stem := "a", choices := [],
     answerIndex := 0, tags := ["year:4", "topic:arithmetic"] },
   { id := "q2", subject := .maths, stem := "b", choices := [],
     answerIndex := 0, tags := ["year:4", "topic:arithmetic"] },
   { id := "q3", subject := .maths, stem := "c", choices := [],
     answerIndex := 0, tags := ["year:4", "topic:arithmetic"] },
   { id := "q4", subject := .maths, stem := "d", choices := [],
     answerIndex := 0, tags := ["year:4", "topic:arithmetic"] }]

/-- A question with a non-empty tag list but no year tag (claim C7). -/
def qYearless : Question :=
  { id := "cq1", subject := .maths, stem := "curated stem",
    choices := ["1", "2", "3", "4"], answerIndex := 0,
    tags := ["topic:arithmetic"] }

/-- Questions with distinct ids and empty stems (claim C8). -/
def emptyStemA : Question :=
  { id := "a", subject := .maths, stem := "", choices := [], answerIndex := 0 }

def emptyStemB : Question :=
  { id := "b", subject := .maths, stem := "", choices := [], answerIndex := 0 }

/-! Section: THEOREMS.  Everything below is proof; no further definitions
of program code appear past this point. -/

/-! Section: Permutation facts about the Fisher–Yates shuffle -/

theorem cons_set_perm {α : Type} :
    ∀ (t : List α) (k : Nat) (x y : α), t.get? k = some y →
      List.Perm (y :: t.set k x) (x :: t) := by
  intro t
  induction t with
  | nil => intro k x y h; simp at h
  | cons a t ih =>
    intro k x y h
    cases k with
    | zero =>
      simp at h
      subst h
      simpa using List.Perm.swap x a t
    | succ k =>
      simp only [List.get?_cons_succ] at h
      have h1 : List.Perm (y :: t.set k x) (x :: t) := ih k x y h
      have s1 : List.Perm (y :: a :: t.set k x) (a :: y :: t.set k x) :=
        List.Perm.swap a y _
      have s2 : List.Perm (a :: y :: t.set k x) (a :: x :: t) :=
        List.Perm.cons a h1
      have s3 : List.Perm (a :: x :: t) (x :: a :: t) := List.Perm.swap x a t
      exact (s1.trans s2).trans s3

theorem listSwap_perm {α : Type} :
    ∀ (l : List α) (i j : Nat), List.Perm (listSwap l i j) l := by
  intro l
  induction l with
  | nil => intro i j; simp [listSwap]
  | cons a t ih =>
    intro i j
    cases i with
    | zero =>
      cases j with
      | zero => simp [listSwap]
      | succ k =>
        unfold listSwap
        cases hk : (a :: t).get? (k + 1) with
        | none => simp
        | some y =>
          simp only [List.get?_cons_zero, List.get?_cons_succ] at hk ⊢
          simp only [List.set_cons_zero, List.set_cons_succ]
          exact cons_set_perm t k a y hk
    | succ m =>
      cases j with
      | zero =>
        unfold listSwap
        cases hm : (a :: t).get? (m + 1) with
        | none => simp
        | some x =>
          simp only [List.get?_cons_zero, List.get?_cons_succ] at hm ⊢
          simp only [List.set_cons_succ, List.set_cons_zero]
          exact cons_set_perm t m a x hm
      | succ k =>
        unfold listSwap
        cases hm : (a :: t).get? (m + 1) with
        | none => simp
        | some x =>
          cases hk : (a :: t).get? (k + 1) with
          | none => simp
          | some y =>
            simp only [List.get?_cons_succ] at hm hk
            simp only [List.set_cons_succ]
            have := ih m k
            unfold listSwap at this
            rw [hm, hk] at this
            exact List.Perm.cons a this

theorem fisherYatesAux_perm {α : Type} (r : Nat → Nat) :
    ∀ (n : Nat) (a : List α), List.Perm (fisherYatesAux r n a) a := by
  intro n
  induction n with
  | zero => intro a; simp [fisherYatesAux]
  | succ i ih =>
    intro a
    unfold fisherYatesAux
    exact (ih _).trans (listSwap_perm a (i + 1) (r (i + 1) % (i + 2)))

/-- The shuffle returns a permutation of its input: same elements with
the same multiplicities. -/
theorem shuffle_perm {α : Type} (r : Nat → Nat) (arr : List α) :
    List.Perm (shuffle r arr) arr :=
  fisherYatesAux_perm r _ arr

theorem shuffle_length {α : Type} (r : Nat → Nat) (arr : List α) :
    (shuffle r arr).length = arr.length :=
  (shuffle_perm r arr).length_eq


/-! Section: Claims C1 and C2 — the session's commit-and-transition
behaviour. -/

/-- While in unpaused quiz mode with at least `n` seconds on the clock,
`n` runs of the timer effect decrement the countdown by `n` and change
nothing else. -/
theorem quizTimerEffect_ticks :
    ∀ (n : Nat) (s : QState), s.mode = .quiz → s.paused = false →
      n ≤ s.secondsLeft →
      quizTimerEffect^[n] s = { s with secondsLeft := s.secondsLeft - n } := by
  intro n
  induction n with
  | zero =>
    intro s _ _ _
    simp
  | succ n ih =>
    intro s hm hp hle
    have hne : ¬ s.secondsLeft = 0 := by omega
    have hstep : quizTimerEffect s = { s with secondsLeft := s.secondsLeft - 1 } := by
      simp [quizTimerEffect, hm, hp, hne]
    rw [Function.iterate_succ_apply, hstep]
    rw [ih { s with secondsLeft := s.secondsLeft - 1 } (by simp [hm]) (by simp [hp])
      (by simp; omega)]
    have harith : s.secondsLeft - 1 - n = s.secondsLeft - (n + 1) := by omega
    simp [harith]

/-- A timer-effect run in unpaused quiz mode with an exhausted countdown
transitions to `results` and adds the full `QUIZ_SECONDS` to the
ledger. -/
theorem quizTimerEffect_expire (s : QState) (hm : s.mode = .quiz)
    (hp : s.paused = false) (h0 : s.secondsLeft = 0) :
    quizTimerEffect s =
      { s with
        mode := .results
        ledger := s.ledger + QUIZ_SECONDS
        dailyUsed := s.ledger + QUIZ_SECONDS } := by
  simp [quizTimerEffect, hm, hp, h0]

/-- C1: the claim states that every session commits its elapsed time to
the Daily Usage Ledger exactly once, with the end-early action and
answering the last question performing the same commit-and-transition
rule as timer expiry.  The code (`part_004`, second variant) contradicts
this: with 0 seconds used today, a 12-question quiz ended early (the
"End quiz" button of line 1072) after 200 elapsed seconds leaves the
ledger untouched (zero commits); a 1-question quiz ended by answering
the last question (lines 993-996) also commits nothing; while the
timer-expiry path (lines 926-930) commits the full `QUIZ_SECONDS = 600`.
The three paths do not perform the same rule, and two of them commit
zero times. -/
theorem C1_commit_paths_divergence :
    ((endQuizClick (quizTimerEffect^[200] (startQuizState 12 (menuState 0)))).mode
        = Mode.results ∧
      (endQuizClick (quizTimerEffect^[200] (startQuizState 12 (menuState 0)))).ledger
        = (menuState 0).ledger) ∧
    ((answerEvent (startQuizState 1 (menuState 0))).mode = Mode.results ∧
      (answerEvent (startQuizState 1 (menuState 0))).ledger = (menuState 0).ledger) ∧
    ((quizTimerEffect^[601] (startQuizState 12 (menuState 0))).mode = Mode.results ∧
      (quizTimerEffect^[601] (startQuizState 12 (menuState 0))).ledger
        = (menuState 0).ledger + QUIZ_SECONDS) := by
  have hs0 : startQuizState 12 (menuState 0)
      = ⟨.quiz, 12, 0, 0, 600, false, 0, 0⟩ := by decide
  have h200 : quizTimerEffect^[200] (startQuizState 12 (menuState 0))
      = ⟨.quiz, 12, 0, 0, 400, false, 0, 0⟩ := by
    rw [hs0, quizTimerEffect_ticks 200 _ rfl rfl (by decide)]; decide
  have h600 : quizTimerEffect^[600] (startQuizState 12 (menuState 0))
      = ⟨.quiz, 12, 0, 0, 0, false, 0, 0⟩ := by
    rw [hs0, quizTimerEffect_ticks 600 _ rfl rfl (by decide)]; decide
  have h601 : quizTimerEffect^[601] (startQuizState 12 (menuState 0))
      = ⟨.results, 12, 0, 0, 0, false, 600, 600⟩ := by
    rw [Function.iterate_succ_apply', h600, quizTimerEffect_expire _ rfl rfl rfl]; decide
  refine ⟨⟨?_, ?_⟩, ⟨by decide, by decide⟩, ⟨?_, ?_⟩⟩
  · rw [h200]; rfl
  · rw [h200]; rfl
  · rw [h601]
  · rw [h601]; rfl

/-- C2 counterexample: in the Scenario C run (fixed budget 600 s, 200 s
of daily budget remaining, i.e. 1600 s already used of the 1800 s cap)
the session does start with `secondsLeft = 200` and does transition to
`results` when the countdown expires, but the ledger increases by
`QUIZ_SECONDS = 600`, not by 200: it is still unchanged after the 200
one-second ticks, and the expiry run of the effect adds 600.  (The
201st run below is the immediate re-run of the timer effect that
observes `secondsLeft = 0`; no further second elapses.) -/
theorem C2_counterexample :
    (startQuizState 12 (menuState 1600)).secondsLeft = 200 ∧
    (quizTimerEffect^[200] (startQuizState 12 (menuState 1600))).ledger = 1600 ∧
    (quizTimerEffect^[201] (startQuizState 12 (menuState 1600))).mode = Mode.results ∧
    (quizTimerEffect^[201] (startQuizState 12 (menuState 1600))).ledger = 1600 + 600 ∧
    (1600 + 600 : Nat) ≠ 1600 + 200 := by
  have hs0 : startQuizState 12 (menuState 1600)
      = ⟨.quiz, 12, 0, 0, 200, false, 1600, 1600⟩ := by decide
  have h200 : quizTimerEffect^[200] (startQuizState 12 (menuState 1600))
      = ⟨.quiz, 12, 0, 0, 0, false, 1600, 1600⟩ := by
    rw [hs0, quizTimerEffect_ticks 200 _ rfl rfl (by decide)]; decide
  have h201 : quizTimerEffect^[201] (startQuizState 12 (menuState 1600))
      = ⟨.results, 12, 0, 0, 0, false, 2200, 2200⟩ := by
    rw [Function.iterate_succ_apply', h200, quizTimerEffect_expire _ rfl rfl rfl]; decide
  refine ⟨by rw [hs0], by rw [h200], by rw [h201], by rw [h201], by decide⟩

/-- C2 amended: with fixed budget 600 s and 200 s of daily budget
remaining, the session starts with `secondsLeft = 200`; after the 200
one-second ticks the countdown is exhausted, and the timer effect then
transitions the mode to `results` and commits `QUIZ_SECONDS = 600` to
the ledger — the full fixed budget (equal to "fixed budget minus the
zero seconds remaining"), not the 200 s of wall-clock time actually
elapsed. -/
theorem C2_expiry_commits_full_budget :
    (startQuizState 12 (menuState 1600)).secondsLeft = 200 ∧
    (quizTimerEffect^[200] (startQuizState 12 (menuState 1600))).secondsLeft = 0 ∧
    (quizTimerEffect^[201] (startQuizState 12 (menuState 1600))).mode = Mode.results ∧
    (quizTimerEffect^[201] (startQuizState 12 (menuState 1600))).ledger
      = (menuState 1600).ledger + QUIZ_SECONDS := by
  have hs0 : startQuizState 12 (menuState 1600)
      = ⟨.quiz, 12, 0, 0, 200, false, 1600, 1600⟩ := by decide
  have h200 : quizTimerEffect^[200] (startQuizState 12 (menuState 1600))
      = ⟨.quiz, 12, 0, 0, 0, false, 1600, 1600⟩ := by
    rw [hs0, quizTimerEffect_ticks 200 _ rfl rfl (by decide)]; decide
  have h201 : quizTimerEffect^[201] (startQuizState 12 (menuState 1600))
      = ⟨.results, 12, 0, 0, 0, false, 2200, 2200⟩ := by
    rw [Function.iterate_succ_apply', h200, quizTimerEffect_expire _ rfl rfl rfl]; decide
  refine ⟨by rw [hs0], by rw [h200], by rw [h201], by rw [h201]; rfl⟩

/-! Section: Claim C3 — entry clamping and refusal. -/

/-- C3: entering a quiz clamps the session's initial countdown to
`min(QUIZ_SECONDS, remainingToday)` (so it never exceeds that bound),
and when the remaining daily budget is zero the start is refused and
the state — in particular the mode — is left unchanged. -/
theorem C3_start_clamp (s : QState) (n : Nat) :
    (remainingToday s = 0 → startQuizState n s = s) ∧
    (canStart s = true →
      (startQuizState n s).mode = Mode.quiz ∧
      (startQuizState n s).secondsLeft = min QUIZ_SECONDS (remainingToday s)) := by
  constructor
  · intro h0
    have hle : DAILY_CAP_SECONDS ≤ s.dailyUsed := Nat.sub_eq_zero_iff_le.mp h0
    have hc : canStart s = false := by
      simp only [canStart, decide_eq_false_iff_not]
      omega
    simp [startQuizState, hc]
  · intro hc
    simp [startQuizState, hc]

/-- C3 witness: at 1800 s used the remaining budget is zero and the
start is refused; at 1600 s used the start succeeds with the countdown
clamped. -/
theorem C3_start_clamp_witness :
    (remainingToday (menuState 1800) = 0 ∧
      startQuizState 12 (menuState 1800) = menuState 1800) ∧
    (canStart (menuState 1600) = true ∧
      (startQuizState 12 (menuState 1600)).mode = Mode.quiz ∧
      (startQuizState 12 (menuState 1600)).secondsLeft
        = min QUIZ_SECONDS (remainingToday (menuState 1600))) :=
  ⟨⟨by decide, (C3_start_clamp (menuState 1800) 12).1 (by decide)⟩,
   ⟨by decide, ((C3_start_clamp (menuState 1600) 12).2 (by decide)).1,
    ((C3_start_clamp (menuState 1600) 12).2 (by decide)).2⟩⟩

/-! Section: Claim C4 — ledger monotonicity and commit accounting. -/

/-- C4: for any same-day sequence of session-end commits, the value
read from the day's ledger entry is non-decreasing along the sequence
(the store is only ever incremented by `addUsedSeconds`, never
decremented), and the sum of the committed amounts equals the final
ledger value minus its value at day start. -/
theorem C4_ledger_monotone (day : String) (store : UsageStore)
    (commits pre suf : List Nat) :
    getUsedSeconds (applyCommits day commits store) day
      = getUsedSeconds store day + commits.sum ∧
    (commits = pre ++ suf →
      getUsedSeconds (applyCommits day pre store) day
        ≤ getUsedSeconds (applyCommits day commits store) day) := by
  have key : ∀ (cs : List Nat) (st : UsageStore),
      getUsedSeconds (applyCommits day cs st) day
        = getUsedSeconds st day + cs.sum := by
    intro cs
    induction cs with
    | nil => intro st; simp [applyCommits, getUsedSeconds]
    | cons n rest ih =>
      intro st
      have hstep : applyCommits day (n :: rest) st
          = applyCommits day rest (addUsedSeconds st day n) := rfl
      rw [hstep, ih]
      simp [addUsedSeconds, getUsedSeconds]
      omega
  refine ⟨key commits store, ?_⟩
  intro h
  subst h
  rw [key, key]
  simp [List.sum_append]

/-- C4 witness: two commits of 600 s and 120 s on one day; the day's
entry ends at start + 720, and the value after the first commit is
below the final value. -/
theorem C4_ledger_monotone_witness :
    getUsedSeconds (applyCommits "2026-02-03" [600, 120] (fun _ => 0)) "2026-02-03"
      = getUsedSeconds (fun _ => 0 : UsageStore) "2026-02-03" + [600, 120].sum ∧
    getUsedSeconds (applyCommits "2026-02-03" [600] (fun _ => 0)) "2026-02-03"
      ≤ getUsedSeconds (applyCommits "2026-02-03" [600, 120] (fun _ => 0)) "2026-02-03" :=
  ⟨(C4_ledger_monotone "2026-02-03" (fun _ => 0) [600, 120] [600] [120]).1,
   (C4_ledger_monotone "2026-02-03" (fun _ => 0) [600, 120] [600] [120]).2 rfl⟩

/-! Section: Claim C9 — answer uniqueness in the generators. -/

/-- C9: the claim states every generated question has exactly one
correct index among its choices.  The fraction-compare generator of
`src/app/page.tsx` (lines 105-118) violates it: for the reachable draw
`n1=1, d1=2, n2=2, d2=4` (numerators drawn from `rand(1,9)`,
denominators from `rand(2,12)`) the two fractions are equal, so the
generated "Which fraction is larger?" item marks both the `2/4` option
and the `Equal` option as correct — two correct options instead of
exactly one.  The spec's generator contract (§4.1, §8 Uniqueness)
states the intent the code misses. -/
theorem C9_two_correct_options :
    ((fracCompareOptions (fun _ => 0) 1 2 2 4).filter (fun o => o.correct)).length
      = 2 := by
  have hgt : ¬ ((1 : ℚ) / 2 > (2 : ℚ) / 4) := by norm_num
  have heq : ((1 : ℚ) / 2 = (2 : ℚ) / 4) := by norm_num
  simp [fracCompareOptions, hgt, heq, shuffle, fisherYatesAux, listSwap]
  decide

/-! Section: Deduplicator invariants. -/

/-- Output of `uniqueAux`: ids are pairwise distinct and avoid `seenId`;
the fingerprints of items with non-empty `sh` are pairwise distinct and
avoid `seenStem`. -/
theorem uniqueAux_inv (xs : List Question) : ∀ (sI sS : List String),
    ((uniqueAux sI sS xs).map Question.id).Nodup ∧
    (∀ q ∈ uniqueAux sI sS xs, q.id ∉ sI) ∧
    (((uniqueAux sI sS xs).filter (fun q => shOf q ≠ "")).map shOf).Nodup ∧
    (∀ q ∈ uniqueAux sI sS xs, shOf q ≠ "" → shOf q ∉ sS) := by
  induction xs with
  | nil => intro sI sS; simp [uniqueAux]
  | cons q rest ih =>
    intro sI sS
    by_cases h1 : q.id ∈ sI
    · simp only [uniqueAux, if_pos h1]
      exact ih sI sS
    · by_cases h2 : shOf q ≠ "" ∧ shOf q ∈ sS
      · simp only [uniqueAux, if_neg h1, if_pos h2]
        exact ih sI sS
      · by_cases h3 : shOf q = ""
        · simp only [uniqueAux, if_neg h1, if_neg h2, if_pos h3]
          obtain ⟨ihN, ihI, ihSN, ihS⟩ := ih (q.id :: sI) sS
          refine ⟨?_, ?_, ?_, ?_⟩
          · simp only [List.map_cons, List.nodup_cons]
            refine ⟨?_, ihN⟩
            intro hmem
            obtain ⟨q', hq', hid⟩ := List.mem_map.mp hmem
            exact (ihI q' hq') (hid ▸ List.mem_cons_self _ _)
          · intro q'' hq''
            rcases List.mem_cons.mp hq'' with rfl | hmem
            · exact h1
            · intro hin
              exact (ihI q'' hmem) (List.mem_cons_of_mem _ hin)
          · rw [List.filter_cons_of_neg (by simp [h3])]
            exact ihSN
          · intro q'' hq'' hsh
            rcases List.mem_cons.mp hq'' with rfl | hmem
            · exact absurd h3 hsh
            · exact ihS q'' hmem hsh
        · simp only [uniqueAux, if_neg h1, if_neg h2, if_neg h3]
          obtain ⟨ihN, ihI, ihSN, ihS⟩ := ih (q.id :: sI) (shOf q :: sS)
          refine ⟨?_, ?_, ?_, ?_⟩
          · simp only [List.map_cons, List.nodup_cons]
            refine ⟨?_, ihN⟩
            intro hmem
            obtain ⟨q', hq', hid⟩ := List.mem_map.mp hmem
            exact (ihI q' hq') (hid ▸ List.mem_cons_self _ _)
          · intro q'' hq''
            rcases List.mem_cons.mp hq'' with rfl | hmem
            · exact h1
            · intro hin
              exact (ihI q'' hmem) (List.mem_cons_of_mem _ hin)
          · rw [List.filter_cons_of_pos (by simp [h3])]
            simp only [List.map_cons, List.nodup_cons]
            constructor
            · intro hmem
              obtain ⟨q', hq', hsh⟩ := List.mem_map.mp hmem
              have hq'r := List.mem_of_mem_filter hq'
              have hne : shOf q' ≠ "" := by
                have := List.of_mem_filter hq'
                simpa using this
              exact (ihS q' hq'r hne) (hsh ▸ List.mem_cons_self _ _)
            · exact ihSN
          · intro q'' hq'' hsh
            rcases List.mem_cons.mp hq'' with rfl | hmem
            · intro hin
              exact h2 ⟨hsh, hin⟩
            · intro hin
              exact (ihS q'' hmem hsh) (List.mem_cons_of_mem _ hin)

/-- On a list whose ids are fresh and pairwise distinct and whose
non-empty fingerprints are fresh and pairwise distinct, `uniqueAux`
keeps everything. -/
theorem uniqueAux_eq_self (xs : List Question) : ∀ (sI sS : List String),
    (∀ q ∈ xs, q.id ∉ sI) → ((xs.map Question.id).Nodup) →
    (∀ q ∈ xs, shOf q ≠ "" → shOf q ∉ sS) →
    (((xs.filter (fun q => shOf q ≠ "")).map shOf).Nodup) →
    uniqueAux sI sS xs = xs := by
  induction xs with
  | nil => intro sI sS _ _ _ _; rfl
  | cons q rest ih =>
    intro sI sS hI hN hS hSN
    have h1 : q.id ∉ sI := hI q (List.mem_cons_self _ _)
    have h2 : ¬(shOf q ≠ "" ∧ shOf q ∈ sS) := by
      rintro ⟨hne, hin⟩
      exact hS q (List.mem_cons_self _ _) hne hin
    simp only [List.map_cons, List.nodup_cons] at hN
    obtain ⟨hqid, hNr⟩ := hN
    by_cases h3 : shOf q = ""
    · simp only [uniqueAux, if_neg h1, if_neg h2, if_pos h3]
      congr 1
      refine ih (q.id :: sI) sS ?_ hNr ?_ ?_
      · intro q' hq'
        intro hin
        rcases List.mem_cons.mp hin with heq | hmem
        · exact hqid (heq ▸ List.mem_map_of_mem Question.id hq')
        · exact hI q' (List.mem_cons_of_mem _ hq') hmem
      · intro q' hq' hne
        exact hS q' (List.mem_cons_of_mem _ hq') hne
      · rw [List.filter_cons_of_neg (by simp [h3])] at hSN
        exact hSN
    · simp only [uniqueAux, if_neg h1, if_neg h2, if_neg h3]
      rw [List.filter_cons_of_pos (by simp [h3])] at hSN
      simp only [List.map_cons, List.nodup_cons] at hSN
      obtain ⟨hqsh, hSNr⟩ := hSN
      congr 1
      refine ih (q.id :: sI) (shOf q :: sS) ?_ hNr ?_ hSNr
      · intro q' hq'
        intro hin
        rcases List.mem_cons.mp hin with heq | hmem
        · exact hqid (heq ▸ List.mem_map_of_mem Question.id hq')
        · exact hI q' (List.mem_cons_of_mem _ hq') hmem
      · intro q' hq' hne
        intro hin
        rcases List.mem_cons.mp hin with heq | hmem
        · refine hqsh ?_
          refine heq ▸ List.mem_map_of_mem shOf ?_
          exact List.mem_filter.mpr ⟨hq', by simpa using hne⟩
        · exact hS q' (List.mem_cons_of_mem _ hq') hne hmem

/-! Section: Claim C8 — deduplicator idempotence and uniqueness. -/

/-- C8 counterexample: the claim states `dedupe(xs)` contains no two
elements with equal normalized-stem fingerprint.  Two distinct items
with empty stems defeat it: `uniqueByIdThenStem` skips the stem check
for an empty stem (the falsy `sh`), keeps both items, and both stems
share the fingerprint `stemHash "" = "0"`. -/
theorem C8_counterexample :
    uniqueByIdThenStem [emptyStemA, emptyStemB] = [emptyStemA, emptyStemB] ∧
    emptyStemA ≠ emptyStemB ∧
    stemHash emptyStemA.stem = stemHash emptyStemB.stem := by
  refine ⟨by decide, by decide, by decide⟩

/-- C8 amended: `dedupe` (the two-stage `uniqueByIdThenStem`) is
idempotent on every candidate list; its output contains no two elements
with equal id, and no two elements *with non-empty stems* with equal
stem fingerprint.  Items whose stem is empty or missing bypass the
fingerprint stage, so only the fingerprint half of the uniqueness claim
must be weakened to non-empty stems. -/
theorem C8_dedupe_idempotent (xs : List Question) :
    uniqueByIdThenStem (uniqueByIdThenStem xs) = uniqueByIdThenStem xs ∧
    ((uniqueByIdThenStem xs).map Question.id).Nodup ∧
    (((uniqueByIdThenStem xs).filter (fun q => shOf q ≠ "")).map shOf).Nodup := by
  obtain ⟨hN, _, hSN, _⟩ := uniqueAux_inv xs [] []
  refine ⟨?_, hN, hSN⟩
  exact uniqueAux_eq_self _ [] [] (by simp) hN (by simp) hSN

/-! Section: Claim C7 — the eligibility predicate. -/

/-- C7 counterexample: the claim states every question whose year tag
is absent passes the year check.  The code's filter instead tests
whether the whole tag list is empty: `qYearless` carries the non-empty
tag list `["topic:arithmetic"]` with no year tag at all, satisfies the
spec's eligibility conditions (`specEligible`), yet is rejected by the
code's filter (`eligible`). -/
theorem C7_counterexample :
    specEligible DEFAULT_SETTINGS [] qYearless = true ∧
    eligible DEFAULT_SETTINGS [] qYearless = false := by
  refine ⟨by decide, by decide⟩

/-- C7 amended: a question passes the code's pool filter iff its tag
list is empty or contains the profile's grade-derived year tag (not:
iff its year tag is absent or matches), its board set is empty or
intersects the accepted boards, its difficulty (defaulting to "medium")
is not "hard" unless the harder-flag is set, and its id is not in the
recency buffer. -/
theorem C7_eligibility_iff (st : Settings) (recent : List String) (q : Question) :
    eligible st recent q = true ↔
      ((q.tags = [] ∨ yearTag st.grade ∈ q.tags) ∧
       (q.exam_board = [] ∨ ∃ b ∈ q.exam_board, b ∈ st.boards) ∧
       (st.allowHarder = true ∨ jsOr (tagValue q.tags "difficulty:") "medium" ≠ "hard") ∧
       q.id ∉ recent) := by
  simp [eligible, buildFilterPred, List.isEmpty_iff, List.any_eq_true,
    decide_eq_true_iff, and_assoc]

/-! Section: Claim C10 — the shuffle is a permutation; draws sample
without replacement. -/

/-- C10: `shuffle(arr)` returns a permutation of `arr` — the same
elements with the same multiplicities — and, being a pure function of a
copied array, never mutates its input (automatic in this embedding, the
source copies with `[...arr]` before swapping).  Consequently every
quota draw `takeFrom(group, n)` is a sub-permutation of its partition:
it takes distinct positions of `group`, i.e. samples without
replacement from exactly the items of the partition. -/
theorem C10_shuffle_perm_takeFrom {α : Type} (r : Nat → Nat) (arr : List α)
    (g : List Question) (n : Nat) :
    List.Perm (shuffle r arr) arr ∧ List.Subperm (takeFrom r g n) g := by
  refine ⟨shuffle_perm r arr, ?_⟩
  unfold takeFrom
  split
  · exact List.nil_subperm
  · exact ((List.take_sublist n _).subperm).trans (shuffle_perm r g).subperm

/-! Section: Claim C5 — recency exhaustion and top-up. -/

/-- C5 counterexample: the Scenario B pair of builds.  The first
`buildWithQuota` call on the 4-item eligible pool returns all 4 items
and records their ids in the recency buffer; the second call, with all
4 ids recent and no new eligible items, returns 0 items — not the 4 the
claim demands: the top-up stage draws from the recency-filtered pool,
so recency is not ignored when the pool is exhausted. -/
theorem C5_counterexample :
    ((buildWithQuota rngZero .maths poolC5 [] DEFAULT_SETTINGS []).1).length = 4 ∧
    (∀ q ∈ poolC5, q.id ∈ (buildWithQuota rngZero .maths poolC5 [] DEFAULT_SETTINGS []).2) ∧
    ((buildWithQuota rngZero .maths poolC5 [] DEFAULT_SETTINGS
        (buildWithQuota rngZero .maths poolC5 [] DEFAULT_SETTINGS []).2).1).length = 0 ∧
    (0 : Nat) ≠ 4 := by
  refine ⟨by decide, by decide, by decide, by decide⟩

/-- C5 amended: once every candidate's id sits in the Recency Buffer,
`buildWithQuota` returns the empty selection (fewer than any positive
target) for every subject and every random stream: the recency filter
empties the pool before the quota draws and before the top-up stage, so
the top-up cannot ignore recency. -/
theorem C5_top_up_blocked (r : Nat → Nat → Nat) (subject : QSubject)
    (curated generated : List Question) (st : Settings) (recent : List String)
    (h : ∀ q ∈ curated ++ generated, q.id ∈ recent) :
    (buildWithQuota r subject curated generated st recent).1 = [] := by
  have hfil : filterNotRecent recent
      ((curated ++ generated).filter (buildFilterPred st)) = [] := by
    apply List.filter_eq_nil_iff.mpr
    intro q hq
    have hmem := h q (List.mem_of_mem_filter hq)
    simp [hmem]
  cases subject <;>
    · simp only [buildWithQuota]
      rw [hfil]
      simp [uniqueByIdThenStem, uniqueAux, byTopic, takeFrom, TARGET_COUNTS]

/-- C5 witness for the amended statement: the concrete second Scenario B
call, with all four pool ids recent, returns the empty selection. -/
theorem C5_top_up_blocked_witness :
    (∀ q ∈ poolC5 ++ [], q.id ∈ ["q1", "q2", "q3", "q4"]) ∧
    (buildWithQuota rngZero .maths poolC5 [] DEFAULT_SETTINGS
      ["q1", "q2", "q3", "q4"]).1 = [] :=
  ⟨by decide,
   C5_top_up_blocked rngZero .maths poolC5 [] DEFAULT_SETTINGS
     ["q1", "q2", "q3", "q4"] (by decide)⟩

/-! Section: Claim C6 — Scenario A, generator-only degradation. -/

/-- Drawing a full-size quota from a partition permutes the whole
partition. -/
theorem takeFrom_perm_full (r : Nat → Nat) (g : List Question) (n : Nat)
    (h : g.length = n) : List.Perm (takeFrom r g n) g := by
  unfold takeFrom
  by_cases h0 : g.length = 0 ∨ n = 0
  · rw [if_pos h0]
    have hg : g = [] := by
      rcases h0 with h0 | h0
      · exact List.eq_nil_of_length_eq_zero h0
      · exact List.eq_nil_of_length_eq_zero (h.trans h0)
    rw [hg]
  · rw [if_neg h0]
    have hlen : (shuffle r g).length = n := (shuffle_length r g).trans h
    rw [List.take_of_length_le (le_of_eq hlen)]
    exact shuffle_perm r g

/-- With the default Y4 profile no generated maths item carries a
"difficulty:hard" tag, for every randomness stream. -/
theorem genMaths_no_hard (now : Nat) (rg : Nat → Nat → Nat) (q : Question)
    (hq : q ∈ genMaths DEFAULT_SETTINGS now rg) :
    ("difficulty:hard" : String) ∉ q.tags := by
  simp only [genMaths, List.mem_cons, List.not_mem_nil, or_false] at hq
  rcases hq with rfl | rfl | rfl | rfl | rfl | rfl | rfl | rfl | rfl | rfl | rfl | rfl <;>
    first
      | exact (by decide : ("difficulty:hard" : String) ∉
          (["year:4", "topic:arithmetic", "skill:multiplication", "difficulty:easy"] : List String))
      | exact (by decide : ("difficulty:hard" : String) ∉
          (["year:4", "topic:fracpct", "skill:frac-of-whole", "difficulty:medium"] : List String))
      | exact (by decide : ("difficulty:hard" : String) ∉
          (["year:4", "topic:geometry", "skill:area", "difficulty:easy"] : List String))
      | exact (by decide : ("difficulty:hard" : String) ∉
          (["year:4", "topic:word", "skill:two-step", "difficulty:medium"] : List String))
      | exact (by decide : ("difficulty:hard" : String) ∉
          (["year:4", "topic:data", "skill:read-data", "difficulty:easy"] : List String))

/-- C6 amended: with the default profile (grade Y4, boards Kent and
Bexley, harder off) and an empty curated pool, `buildWithQuota` for
maths returns generator-only items, none of which carries a
"difficulty:hard" tag — and exactly 12 of them *provided* the twelve
randomly generated items have pairwise distinct ids and pairwise
distinct stem fingerprints.  The proviso is what the counterexample
forces: duplicate random stems are deduplicated away and shrink the
result below 12. -/
theorem C6_generator_only_degraded (now : Nat) (rg rb : Nat → Nat → Nat)
    (hid : ((genMaths DEFAULT_SETTINGS now rg).map Question.id).Nodup)
    (hfp : ((genMaths DEFAULT_SETTINGS now rg).map shOf).Nodup) :
    ((buildWithQuota rb .maths [] (genMaths DEFAULT_SETTINGS now rg)
        DEFAULT_SETTINGS []).1).length = 12 ∧
    ∀ q ∈ (buildWithQuota rb .maths [] (genMaths DEFAULT_SETTINGS now rg)
        DEFAULT_SETTINGS []).1,
      q ∈ genMaths DEFAULT_SETTINGS now rg ∧ ("difficulty:hard" : String) ∉ q.tags := by
  have hpredG : List.filter (buildFilterPred DEFAULT_SETTINGS)
      (genMaths DEFAULT_SETTINGS now rg) = genMaths DEFAULT_SETTINGS now rg := by
    apply List.filter_eq_self.mpr
    intro q hq
    simp only [genMaths, List.mem_cons, List.not_mem_nil, or_false] at hq
    rcases hq with rfl | rfl | rfl | rfl | rfl | rfl | rfl | rfl | rfl | rfl | rfl | rfl <;> rfl
  have hnr : filterNotRecent [] (genMaths DEFAULT_SETTINGS now rg)
      = genMaths DEFAULT_SETTINGS now rg := by
    simp [filterNotRecent]
  have hfp' : (((genMaths DEFAULT_SETTINGS now rg).filter
      (fun q => shOf q ≠ "")).map shOf).Nodup :=
    List.Nodup.sublist (List.Sublist.map shOf (List.filter_sublist _)) hfp
  have hu : uniqueByIdThenStem (genMaths DEFAULT_SETTINGS now rg)
      = genMaths DEFAULT_SETTINGS now rg :=
    uniqueAux_eq_self _ [] [] (by simp) hid (by simp) hfp'
  have hT1 : List.Perm
      (takeFrom (rb 0) (byTopic (genMaths DEFAULT_SETTINGS now rg) "arithmetic") 4)
      (byTopic (genMaths DEFAULT_SETTINGS now rg) "arithmetic") :=
    takeFrom_perm_full _ _ _ (by rfl)
  have hT2 : List.Perm
      (takeFrom (rb 1) (byTopic (genMaths DEFAULT_SETTINGS now rg) "fracpct") 3)
      (byTopic (genMaths DEFAULT_SETTINGS now rg) "fracpct") :=
    takeFrom_perm_full _ _ _ (by rfl)
  have hT3 : List.Perm
      (takeFrom (rb 2) (byTopic (genMaths DEFAULT_SETTINGS now rg) "geometry") 2)
      (byTopic (genMaths DEFAULT_SETTINGS now rg) "geometry") :=
    takeFrom_perm_full _ _ _ (by rfl)
  have hT4 : List.Perm
      (takeFrom (rb 3) (byTopic (genMaths DEFAULT_SETTINGS now rg) "word") 2)
      (byTopic (genMaths DEFAULT_SETTINGS now rg) "word") :=
    takeFrom_perm_full _ _ _ (by rfl)
  have hT5 : List.Perm
      (takeFrom (rb 4) (byTopic (genMaths DEFAULT_SETTINGS now rg) "data") 1)
      (byTopic (genMaths DEFAULT_SETTINGS now rg) "data") :=
    takeFrom_perm_full _ _ _ (by rfl)
  have hS : List.Perm
      (takeFrom (rb 0) (byTopic (genMaths DEFAULT_SETTINGS now rg) "arithmetic") 4 ++
       takeFrom (rb 1) (byTopic (genMaths DEFAULT_SETTINGS now rg) "fracpct") 3 ++
       takeFrom (rb 2) (byTopic (genMaths DEFAULT_SETTINGS now rg) "geometry") 2 ++
       takeFrom (rb 3) (byTopic (genMaths DEFAULT_SETTINGS now rg) "word") 2 ++
       takeFrom (rb 4) (byTopic (genMaths DEFAULT_SETTINGS now rg) "data") 1)
      (genMaths DEFAULT_SETTINGS now rg) := by
    have happ := (((hT1.append hT2).append hT3).append hT4).append hT5
    have hconcat : byTopic (genMaths DEFAULT_SETTINGS now rg) "arithmetic" ++
        byTopic (genMaths DEFAULT_SETTINGS now rg) "fracpct" ++
        byTopic (genMaths DEFAULT_SETTINGS now rg) "geometry" ++
        byTopic (genMaths DEFAULT_SETTINGS now rg) "word" ++
        byTopic (genMaths DEFAULT_SETTINGS now rg) "data"
        = genMaths DEFAULT_SETTINGS now rg := by rfl
    exact hconcat ▸ happ
  have hSlen : (takeFrom (rb 0) (byTopic (genMaths DEFAULT_SETTINGS now rg) "arithmetic") 4 ++
       takeFrom (rb 1) (byTopic (genMaths DEFAULT_SETTINGS now rg) "fracpct") 3 ++
       takeFrom (rb 2) (byTopic (genMaths DEFAULT_SETTINGS now rg) "geometry") 2 ++
       takeFrom (rb 3) (byTopic (genMaths DEFAULT_SETTINGS now rg) "word") 2 ++
       takeFrom (rb 4) (byTopic (genMaths DEFAULT_SETTINGS now rg) "data") 1).length = 12 :=
    hS.length_eq.trans (by rfl)
  have hidS := (List.Perm.nodup_iff (hS.map Question.id)).mpr hid
  have hfpS := (List.Perm.nodup_iff (hS.map shOf)).mpr hfp
  have hfpS' : (((takeFrom (rb 0) (byTopic (genMaths DEFAULT_SETTINGS now rg) "arithmetic") 4 ++
       takeFrom (rb 1) (byTopic (genMaths DEFAULT_SETTINGS now rg) "fracpct") 3 ++
       takeFrom (rb 2) (byTopic (genMaths DEFAULT_SETTINGS now rg) "geometry") 2 ++
       takeFrom (rb 3) (byTopic (genMaths DEFAULT_SETTINGS now rg) "word") 2 ++
       takeFrom (rb 4) (byTopic (genMaths DEFAULT_SETTINGS now rg) "data") 1).filter
      (fun q => shOf q ≠ "")).map shOf).Nodup :=
    List.Nodup.sublist (List.Sublist.map shOf (List.filter_sublist _)) hfpS
  have hu2 := uniqueAux_eq_self _ [] [] (by simp) hidS (by simp) hfpS'
  have hcond : TARGET_COUNTS QSubject.maths ≤
      (takeFrom (rb 0) (byTopic (genMaths DEFAULT_SETTINGS now rg) "arithmetic") 4 ++
       takeFrom (rb 1) (byTopic (genMaths DEFAULT_SETTINGS now rg) "fracpct") 3 ++
       takeFrom (rb 2) (byTopic (genMaths DEFAULT_SETTINGS now rg) "geometry") 2 ++
       takeFrom (rb 3) (byTopic (genMaths DEFAULT_SETTINGS now rg) "word") 2 ++
       takeFrom (rb 4) (byTopic (genMaths DEFAULT_SETTINGS now rg) "data") 1).length := by
    rw [hSlen]
    exact le_refl 12
  have key : (buildWithQuota rb .maths [] (genMaths DEFAULT_SETTINGS now rg)
      DEFAULT_SETTINGS []).1
      = takeFrom (rb 0) (byTopic (genMaths DEFAULT_SETTINGS now rg) "arithmetic") 4 ++
        takeFrom (rb 1) (byTopic (genMaths DEFAULT_SETTINGS now rg) "fracpct") 3 ++
        takeFrom (rb 2) (byTopic (genMaths DEFAULT_SETTINGS now rg) "geometry") 2 ++
        takeFrom (rb 3) (byTopic (genMaths DEFAULT_SETTINGS now rg) "word") 2 ++
        takeFrom (rb 4) (byTopic (genMaths DEFAULT_SETTINGS now rg) "data") 1 := by
    simp only [buildWithQuota, List.nil_append]
    rw [hpredG, hnr, hu]
    rw [if_pos hcond]
    have hu2' : uniqueByIdThenStem
        (takeFrom (rb 0) (byTopic (genMaths DEFAULT_SETTINGS now rg) "arithmetic") 4 ++
       takeFrom (rb 1) (byTopic (genMaths DEFAULT_SETTINGS now rg) "fracpct") 3 ++
       takeFrom (rb 2) (byTopic (genMaths DEFAULT_SETTINGS now rg) "geometry") 2 ++
       takeFrom (rb 3) (byTopic (genMaths DEFAULT_SETTINGS now rg) "word") 2 ++
       takeFrom (rb 4) (byTopic (genMaths DEFAULT_SETTINGS now rg) "data") 1) =
        (takeFrom (rb 0) (byTopic (genMaths DEFAULT_SETTINGS now rg) "arithmetic") 4 ++
       takeFrom (rb 1) (byTopic (genMaths DEFAULT_SETTINGS now rg) "fracpct") 3 ++
       takeFrom (rb 2) (byTopic (genMaths DEFAULT_SETTINGS now rg) "geometry") 2 ++
       takeFrom (rb 3) (byTopic (genMaths DEFAULT_SETTINGS now rg) "word") 2 ++
       takeFrom (rb 4) (byTopic (genMaths DEFAULT_SETTINGS now rg) "data") 1) := hu2
    rw [hu2']
    exact List.take_of_length_le (le_of_eq hSlen)
  constructor
  · rw [key]
    exact hSlen
  · intro q hq
    rw [key] at hq
    exact ⟨(hS.mem_iff).mp hq, genMaths_no_hard now rg q ((hS.mem_iff).mp hq)⟩


set_option maxRecDepth 400000 in
/-- C6 counterexample: the claim asserts the build returns exactly 12
generator-only items.  Under the all-zero random stream `genMaths`
repeats stems (all four arithmetic items become "What is 2 × 2?"), the
deduplicator removes the repeats, and the build returns 5 items, not
12. -/
theorem C6_counterexample :
    ((buildWithQuota rngZero .maths [] (genMaths DEFAULT_SETTINGS 0 rngZero)
        DEFAULT_SETTINGS []).1).length = 5 ∧ (5 : Nat) ≠ 12 := by
  refine ⟨by decide, by decide⟩

set_option maxRecDepth 400000 in
/-- C6 witness for the amended statement: the stream `rgDistinct` gives
twelve distinct ids and stem fingerprints, and the build then returns
exactly 12 items. -/
theorem C6_generator_only_degraded_witness :
    ((genMaths DEFAULT_SETTINGS 0 rgDistinct).map Question.id).Nodup ∧
    ((genMaths DEFAULT_SETTINGS 0 rgDistinct).map shOf).Nodup ∧
    ((buildWithQuota rngZero .maths [] (genMaths DEFAULT_SETTINGS 0 rgDistinct)
        DEFAULT_SETTINGS []).1).length = 12 :=
  ⟨by decide, by decide,
   (C6_generator_only_degraded 0 rgDistinct rngZero (by decide) (by decide)).1⟩

end ElevenPlus
